import Mathlib

/-!
# A model of the Angular build-and-deploy utility (src/deploy.py)

This file gives a shallow embedding of the deployment pipeline implemented in
src/deploy.py and proves the specification claims about it.

Modelling conventions:
* External effects (process spawns, prompts, filesystem and network calls) are
  recorded as an ordered trace of Event values; the outcome of each external
  call (success or failure) is an input to the model (the World structure),
  so every exit path of the orchestrator corresponds to some World.
* A remote directory is modelled by the set of files below it, each file
  given by its relative path: a nonempty list of components encoded as
  (head, tail) in RelPath.  Directories that contain no files are invisible
  in this abstraction, which is adequate for the claims proved here.
* Python truthiness of optional string arguments is modelled by the empty
  string.
-/

namespace Deploy

/-! ## String primitives

Pure, list-based embeddings of the Python string operations used by the
source (membership tests, strip, lower, single-character replace and split).
-/

/-- Python `c in s` for a single character. -/
def strContains (s : String) (c : Char) : Bool :=
  s.data.contains c

/-- Python str.lower (over the ASCII letters the tool cares about). -/
def strLower (s : String) : String :=
  String.mk (s.data.map Char.toLower)

/-- Python str.strip(): drop whitespace from both ends. -/
def strTrim (s : String) : String :=
  String.mk (((s.data.dropWhile Char.isWhitespace).reverse.dropWhile
    Char.isWhitespace).reverse)

/-- Python s.replace('/', '\\'): character-wise replacement. -/
def replaceSlash (s : String) : String :=
  String.mk (s.data.map (fun c => if c == '/' then '\\' else c))

/-- Python s.split('\\'). -/
def splitOnBS (s : String) : List String :=
  (s.data.foldr (fun c acc =>
    match acc with
    | [] => [[c]]
    | cur :: rest => if c == '\\' then [] :: cur :: rest else (c :: cur) :: rest)
    [[]]).map String.mk

/-- The five major pipeline steps listed by the dry-run plan
(DeploymentManager._handle_deploy_command, lines 713-720). -/
inductive Step
  | build | zip | connect | backup | deploy
  deriving DecidableEq, Repr

/-- Observable external actions of one run of the utility. -/
inductive Event
  /-- ConfigManager._ensure_config_dir creates the config directory
  (a filesystem mutation, performed only when the directory is absent). -/
  | mkdirConfigDir
  /-- interactive prompt for the site name (ArgumentParser.parse_site_and_app) -/
  | promptSite
  /-- external build tool invocation (BuildManager.run_build) -/
  | ngBuild
  /-- writing the build archive (BuildManager.create_zip_file) -/
  | createZip
  /-- reachability probe (NetworkManager.test_server_connection) -/
  | ping
  /-- anonymous listing of the share (NetworkManager.connect_to_share) -/
  | anonList
  /-- interactive prompt for the username (NetworkManager._authenticate_and_map) -/
  | promptUser
  /-- interactive prompt for the password (NetworkManager._authenticate_and_map) -/
  | promptPass
  /-- the mount command on the given drive (NetworkManager._authenticate_and_map) -/
  | netUse (drive : String)
  /-- the deployment confirmation prompt (UserInterface.confirm_deployment) -/
  | promptConfirm
  /-- the "Deployment cancelled by user." message -/
  | cancelledMsg
  /-- invocation of BackupManager.create_backup by the orchestrator -/
  | backupCall
  /-- the backup archive write attempt inside create_backup -/
  | backupAttempt
  /-- the "Warning: Failed to create backup" message -/
  | backupWarn
  /-- os.makedirs of the target path before deployment -/
  | makeTargetDir
  /-- clearing the target directory (DeploymentExecutor.clear_target_directory) -/
  | clearDir
  /-- extraction of the archive into the target (DeploymentExecutor.deploy_files) -/
  | extract
  /-- the success report (UserInterface.show_success) -/
  | showSuccess
  /-- the "Deployment failed" message of the except handler -/
  | failMsg
  /-- the manual-deployment instruction block (UserInterface.show_manual_instructions) -/
  | showManual
  /-- the dry-run plan print, carrying the listed steps with their skip flags -/
  | dryPlan (lines : List (Step × Bool))
  /-- invocation of NetworkManager.disconnect in the finally block -/
  | disconnectCall
  /-- the unmount command issued by disconnect for the given drive -/
  | netUseDelete (drive : String)
  deriving DecidableEq, Repr

/-! ## DeploymentExecutor: clear_target_directory and deploy_files -/

/-- A file path relative to a directory: a nonempty component list,
encoded as first component plus rest. -/
abbrev RelPath := String × List String

/-- The direct children returned by os.listdir, modelled as the distinct
first components of the files below the directory, in first-occurrence order. -/
def childrenOf (files : List RelPath) : List String :=
  (files.map Prod.fst).dedup

/-- The removal loop of clear_target_directory (lines 524-533): children are
removed one by one; `fails c` says removal of child `c` raises.  The single
try/except wraps the whole loop, so the first failure aborts the loop; the
warning is printed only in verbose mode.  Returns the files left below the
directory and whether a warning was printed. -/
def clearLoop (fails : String → Bool) (verbose : Bool) :
    List String → List RelPath → List RelPath × Bool
  | [], files => (files, false)
  | c :: cs, files =>
      if fails c then (files, verbose)
      else clearLoop fails verbose cs (files.filter (fun p => !(p.1 == c)))

/-- DeploymentExecutor.clear_target_directory (lines 515-533).  `none` models
a target path that does not exist: it is created empty.  The function never
raises. -/
def clear_target_directory (st : Option (List RelPath)) (fails : String → Bool)
    (verbose : Bool) : Option (List RelPath) × Bool :=
  match st with
  | none => (some [], false)
  | some files =>
      (some (clearLoop fails verbose (childrenOf files) files).1,
       (clearLoop fails verbose (childrenOf files) files).2)

/-- DeploymentExecutor.deploy_files (lines 535-548): extractall writes every
archive entry below the target, overwriting files at matching paths and
leaving other files alone. -/
def deploy_files (st : Option (List RelPath)) (entries : List RelPath) :
    Option (List RelPath) :=
  some ((st.getD []).filter (fun p => !(entries.contains p)) ++ entries)

/-! ## BuildManager.create_zip_file -/

/-- The timestamp components captured by datetime.now() at packaging start. -/
structure DateTime where
  year : Nat
  month : Nat
  day : Nat
  hour : Nat
  minute : Nat
  second : Nat

/-- Two-digit zero padding, as in strftime. -/
def pad2 (n : Nat) : String :=
  if n < 10 then "0" ++ toString n else toString n

/-- Four-digit zero padding, as in strftime %Y. -/
def pad4 (n : Nat) : String :=
  if n < 10 then "000" ++ toString n
  else if n < 100 then "00" ++ toString n
  else if n < 1000 then "0" ++ toString n
  else toString n

/-- strftime "%Y%m%d_%H%M%S" (line 354). -/
def timestampOf (t : DateTime) : String :=
  pad4 t.year ++ pad2 t.month ++ pad2 t.day ++ "_" ++
    pad2 t.hour ++ pad2 t.minute ++ pad2 t.second

/-- The compression mode handed to zipfile.ZipFile. -/
inductive ZipMode
  | stored | deflated
  deriving DecidableEq, Repr

/-- BuildManager.create_zip_file (lines 347-370).  `buildPath` is the build
folder as a component list; `tree` is the rglob listing of everything below
it (full path, is_file flag), and `now` is the datetime.now() value taken at
packaging start.  Returns the archive name, the compression mode and the
entry list: every file, with its path relative to the build folder. -/
def create_zip_file (buildPath : List String) (siteName appName : String)
    (now : DateTime) (tree : List (List String × Bool)) :
    String × ZipMode × List (List String) :=
  (siteName ++ "_" ++ appName ++ "_build_" ++ timestampOf now ++ ".zip",
   ZipMode.deflated,
   (tree.filter (fun q => q.2)).map (fun q => q.1.drop buildPath.length))

/-! ## ArgumentParser.parse_site_and_app -/

/-- ArgumentParser.parse_site_and_app (lines 267-299).  Optional arguments are
empty strings when absent (Python falsiness); `cwdBase` is the basename of the
current directory and `promptedSite` the reply the site-name prompt would get.
Returns the prompt events issued and either the (site, app) pair or an error
(ValueError). -/
def parse_site_and_app (deploymentPath appName cwdBase promptedSite : String) :
    List Event × Except Unit (String × String) :=
  if deploymentPath ≠ "" then
    if strContains deploymentPath '\\' || strContains deploymentPath '/' then
      match splitOnBS (replaceSlash deploymentPath) with
      | [a, b] => ([], Except.ok (a, b))
      | _ => ([], Except.error ())
    else if appName ≠ "" then ([], Except.ok (deploymentPath, appName))
    else ([], Except.ok (deploymentPath, cwdBase))
  else
    let viaSplit : Option (String × String) :=
      if strContains cwdBase '\\' || strContains cwdBase '/' then
        match (splitOnBS (replaceSlash cwdBase)).reverse with
        | b :: a :: _ => some (a, b)
        | _ => none
      else none
    match viaSplit with
    | some r => ([], Except.ok r)
    | none =>
        let s := strTrim promptedSite
        if s = "" then ([Event.promptSite], Except.error ())
        else ([Event.promptSite], Except.ok (s, cwdBase))

/-! ## NetworkManager -/

/-- The resolved deployment configuration fields used by NetworkManager. -/
structure NetConfig where
  remote_server : String
  remote_share : String
  username : String
  password : String

/-- The UNC path built in NetworkManager.__init__ (line 380). -/
def remote_path (cfg : NetConfig) : String :=
  "\\\\" ++ cfg.remote_server ++ "\\" ++ cfg.remote_share

/-- The drive-letter scan order of _find_available_drive (line 436). -/
def driveLetters : List String :=
  "ZYXWVUTSRQPONMLKJIHGFEDCBA".toList.map (fun c => String.mk [c] ++ ":")

/-- NetworkManager._find_available_drive (lines 434-440): the first drive of
the scan order that does not exist, none when all letters are taken
(RuntimeError in the source). -/
def find_available_drive (driveExists : String → Bool) : Option String :=
  driveLetters.find? (fun d => !(driveExists d))

/-- Failure modes of connect_to_share. -/
inductive ConnErr
  | authFailed | noDriveLetters
  deriving DecidableEq, Repr

/-- NetworkManager._authenticate_and_map (lines 415-432): resolve credentials
(config values, else prompts), pick a drive letter, run the mount command.
`mountOk` is the mount command's success.  Returns the events and either the
accessible path paired with the recorded connected drive, or the error. -/
def authenticate_and_map (cfg : NetConfig) (driveExists : String → Bool)
    (mountOk : Bool) : List Event × Except ConnErr (String × Option String) :=
  let uEvs : List Event := if cfg.username = "" then [Event.promptUser] else []
  let pEvs : List Event := if cfg.password = "" then [Event.promptPass] else []
  match find_available_drive driveExists with
  | none => (uEvs ++ pEvs, Except.error ConnErr.noDriveLetters)
  | some d =>
      (uEvs ++ pEvs ++ [Event.netUse d],
       if mountOk then Except.ok (d, some d)
       else Except.error ConnErr.authFailed)

/-- NetworkManager.connect_to_share (lines 399-413): try an anonymous listing
of the UNC path first; on success use the UNC path directly with no drive
allocated, otherwise fall back to authenticated mapping. -/
def connect_to_share (cfg : NetConfig) (anonOk : Bool) (driveExists : String → Bool)
    (mountOk : Bool) : List Event × Except ConnErr (String × Option String) :=
  if anonOk then ([Event.anonList], Except.ok (remote_path cfg, none))
  else
    let r := authenticate_and_map cfg driveExists mountOk
    (Event.anonList :: r.1, r.2)

/-- NetworkManager.disconnect (lines 442-455): if a drive was recorded, issue
one unmount command; a CalledProcessError from it is swallowed (the except
body is pass), so the result does not depend on `unmountOk`; with no recorded
drive nothing happens. -/
def disconnect_events (connectedDrive : Option String) (_unmountOk : Bool) :
    List Event :=
  match connectedDrive with
  | some d => [Event.netUseDelete d]
  | none => []

/-! ## BackupManager.create_backup -/

/-- BackupManager.create_backup (lines 464-506).  Returns the events and the
backup record (`some` when an archive was written).  A missing or empty target
produces no record and no attempt; an archival failure is caught, warned about
only in verbose mode, and yields no record; the function never raises. -/
def create_backup (verbose targetExists targetNonempty backupOk : Bool) :
    List Event × Option Unit :=
  if targetExists = false then ([], none)
  else if targetNonempty = false then ([], none)
  else if backupOk then ([Event.backupAttempt], some ())
  else ([Event.backupAttempt] ++ (if verbose then [Event.backupWarn] else []), none)

/-! ## UserInterface.confirm_deployment -/

/-- UserInterface.confirm_deployment (lines 575-591): with the force flag,
returns true without prompting; otherwise prompts and accepts exactly the
response "y" after strip().lower(). -/
def confirm_deployment (force : Bool) (response : String) : List Event × Bool :=
  if force then ([], true)
  else ([Event.promptConfirm], strLower (strTrim response) == "y")

/-! ## The orchestrator: DeploymentManager -/

/-- The deploy-command flags and positional arguments. -/
structure Args where
  deploymentPath : String
  appName : String
  noBackup : Bool
  noBuild : Bool
  buildFolder : String
  dryRun : Bool
  force : Bool
  verbose : Bool

/-- Outcomes of all external collaborators of one run: each field fixes what
the corresponding external call would do, so the set of Worlds covers every
exit path of the orchestrator. -/
structure World where
  configDirExists : Bool
  cwdBase : String
  promptedSite : String
  angularJsonExists : Bool
  buildOk : Bool
  buildFolderFound : Bool
  zipOk : Bool
  pingOk : Bool
  cfg : NetConfig
  anonOk : Bool
  driveExists : String → Bool
  mountOk : Bool
  targetExists : Bool
  targetNonempty : Bool
  backupOk : Bool
  confirmResponse : String
  extractOk : Bool
  unmountOk : Bool

/-- The five dry-run plan lines (lines 714-719), each with the flag saying
whether the step would actually be performed (false for the Skip variants). -/
def planLines (a : Args) : List (Step × Bool) :=
  [(Step.build, !a.noBuild), (Step.zip, true), (Step.connect, true),
   (Step.backup, !a.noBackup), (Step.deploy, true)]

/-- Stage of _handle_deploy_command after confirmation: optional backup,
makedirs, clear, extract (lines 752-765).  Extraction failure raises into the
except handler. -/
def stageDeploy (a : Args) (w : World) (pre : List Event) (drv : Option String) :
    List Event × Bool × Option String :=
  (pre ++
    (if a.noBackup then []
     else Event.backupCall ::
       (create_backup a.verbose w.targetExists w.targetNonempty w.backupOk).1) ++
    [Event.makeTargetDir, Event.clearDir, Event.extract] ++
    (if w.extractOk then [Event.showSuccess]
     else [Event.failMsg, Event.showManual]),
   true, drv)

/-- Stage of _handle_deploy_command at the confirmation prompt
(lines 744-748): a refused confirmation prints the cancellation message and
returns (no failure). -/
def stageConfirm (a : Args) (w : World) (pre : List Event) (drv : Option String) :
    List Event × Bool × Option String :=
  if (confirm_deployment a.force w.confirmResponse).2 then
    stageDeploy a w (pre ++ (confirm_deployment a.force w.confirmResponse).1) drv
  else
    (pre ++ (confirm_deployment a.force w.confirmResponse).1 ++
      [Event.cancelledMsg], true, drv)

/-- Stage of _handle_deploy_command at connect_to_share (line 734): a
connection failure raises into the except handler with no drive recorded. -/
def stageConnect (a : Args) (w : World) (pre : List Event) :
    List Event × Bool × Option String :=
  match (connect_to_share w.cfg w.anonOk w.driveExists w.mountOk).2 with
  | Except.error _ =>
      (pre ++ (connect_to_share w.cfg w.anonOk w.driveExists w.mountOk).1 ++
        [Event.failMsg, Event.showManual], true, none)
  | Except.ok pd =>
      stageConfirm a w
        (pre ++ (connect_to_share w.cfg w.anonOk w.driveExists w.mountOk).1) pd.2

/-- Stage of _handle_deploy_command from the build step through the ping
(lines 726-733): build, build-folder detection, zip creation and the
reachability probe each raise into the except handler on failure. -/
def stageBuild (a : Args) (w : World) (pre : List Event) :
    List Event × Bool × Option String :=
  if a.noBuild = false ∧ w.buildOk = false then
    (pre ++ [Event.ngBuild, Event.failMsg, Event.showManual], true, none)
  else
    let bEvs : List Event := if a.noBuild then [] else [Event.ngBuild]
    if w.buildFolderFound = false then
      (pre ++ bEvs ++ [Event.failMsg, Event.showManual], true, none)
    else if w.zipOk = false then
      (pre ++ bEvs ++ [Event.createZip, Event.failMsg, Event.showManual], true, none)
    else if w.pingOk = false then
      (pre ++ bEvs ++ [Event.createZip, Event.ping, Event.failMsg, Event.showManual],
       true, none)
    else stageConnect a w (pre ++ bEvs ++ [Event.createZip, Event.ping])

/-- The try block of _handle_deploy_command (lines 678-776) together with its
except handlers.  Returns the events, whether the NetworkManager was
constructed (line 704), and the drive letter it recorded.  A parse failure
happens before the config is set, so it prints only the failure message; the
dry-run branch returns right after printing the plan; a validation failure
raises before any build activity. -/
def deployBody (a : Args) (w : World) : List Event × Bool × Option String :=
  match (parse_site_and_app a.deploymentPath a.appName w.cwdBase
      w.promptedSite).2 with
  | Except.error _ =>
      ((parse_site_and_app a.deploymentPath a.appName w.cwdBase
          w.promptedSite).1 ++ [Event.failMsg], false, none)
  | Except.ok _ =>
      if a.dryRun then
        ((parse_site_and_app a.deploymentPath a.appName w.cwdBase
            w.promptedSite).1 ++ [Event.dryPlan (planLines a)], true, none)
      else if w.angularJsonExists = false then
        ((parse_site_and_app a.deploymentPath a.appName w.cwdBase
            w.promptedSite).1 ++ [Event.failMsg, Event.showManual], true, none)
      else
        stageBuild a w (parse_site_and_app a.deploymentPath a.appName w.cwdBase
          w.promptedSite).1

/-- One full run of the deploy command: the ConfigManager constructor ensures
the config directory (lines 40-42, a mkdir only when it is absent), then the
command body runs, and the finally block (lines 777-781) invokes disconnect
exactly when the NetworkManager was constructed. -/
def runDeploy (a : Args) (w : World) : List Event :=
  (if w.configDirExists then [] else [Event.mkdirConfigDir]) ++
    (deployBody a w).1 ++
    (if (deployBody a w).2.1 then
       Event.disconnectCall ::
         disconnect_events (deployBody a w).2.2 w.unmountOk
     else [])

/-- Events that mutate a filesystem (local or remote). -/
def isFsMutation : Event → Bool
  | Event.mkdirConfigDir => true
  | Event.createZip => true
  | Event.backupAttempt => true
  | Event.makeTargetDir => true
  | Event.clearDir => true
  | Event.extract => true
  | _ => false

/-- Events that are network calls. -/
def isNetwork : Event → Bool
  | Event.ping => true
  | Event.anonList => true
  | Event.netUse _ => true
  | Event.netUseDelete _ => true
  | _ => false

/-- Cleanup-phase events: the disconnect invocation and its unmount command. -/
def isCleanupEvent : Event → Bool
  | Event.disconnectCall => true
  | Event.netUseDelete _ => true
  | _ => false

/-- The major pipeline step, if any, that an executed event realizes; used to
compare a real run against the dry-run plan. -/
def stepOf : Event → Option Step
  | Event.ngBuild => some Step.build
  | Event.createZip => some Step.zip
  | Event.anonList => some Step.connect
  | Event.backupCall => some Step.backup
  | Event.extract => some Step.deploy
  | _ => none

/-- The events every non-prompt, non-parameterized branch of the body can
emit besides the component events; used by the trace-membership lemma. -/
def coreEvents (a : Args) : List Event :=
  [Event.ngBuild, Event.createZip, Event.ping, Event.backupCall,
   Event.makeTargetDir, Event.clearDir, Event.extract, Event.showSuccess,
   Event.failMsg, Event.showManual, Event.cancelledMsg,
   Event.dryPlan (planLines a)]

/-! ## Concrete inputs used by the witnesses and counterexamples -/

/-- A concrete argument vector: two-token site/app, all flags off except
force. -/
def okArgs : Args :=
  { deploymentPath := "akbl", appName := "mobile", noBackup := false,
    noBuild := false, buildFolder := "", dryRun := false, force := true,
    verbose := false }

/-- A concrete world where every external call succeeds and the share is
accessible anonymously. -/
def okWorld : World :=
  { configDirExists := true, cwdBase := "proj", promptedSite := "",
    angularJsonExists := true, buildOk := true, buildFolderFound := true,
    zipOk := true, pingOk := true,
    cfg := { remote_server := "172.20.3.119", remote_share := "e$",
             username := "u", password := "p" },
    anonOk := true, driveExists := fun _ => true, mountOk := true,
    targetExists := true, targetNonempty := true, backupOk := true,
    confirmResponse := "y", extractOk := true, unmountOk := true }

/-- okWorld with anonymous access refused, every drive letter free and the
unmount command failing: the run maps drive Z:. -/
def mappedWorld : World :=
  { okWorld with
    anonOk := false,
    driveExists := (fun _ => false),
    unmountOk := false }

/-- okWorld with a failing backup archival. -/
def backupFailWorld : World :=
  { okWorld with backupOk := false }

/-- okWorld with the configuration directory absent at startup. -/
def noCfgDirWorld : World :=
  { okWorld with configDirExists := false }

/-- okArgs with the dry-run flag set. -/
def dryArgs : Args :=
  { okArgs with dryRun := true }

/-- okWorld without the project marker file and without any build output. -/
def brokenWorld : World :=
  { okWorld with
    angularJsonExists := false,
    buildFolderFound := false }

/-- okWorld where the operator answers the confirmation prompt with the
literal word "yes". -/
def yesWorld : World :=
  { okWorld with confirmResponse := "yes" }

/-- okArgs without the force flag: the confirmation prompt is shown. -/
def promptArgs : Args :=
  { okArgs with force := false }

/-- okArgs with verbose output enabled. -/
def verboseArgs : Args :=
  { okArgs with verbose := true }


/-! # Supporting lemmas for the clear/deploy file-set claims -/

/-- When no child removal fails, the removal loop filters out every listed
child and prints no warning. -/
theorem clearLoop_no_fail (fails : String → Bool) (v : Bool) (cs : List String) :
    ∀ files : List RelPath, (∀ c ∈ cs, fails c = false) →
      clearLoop fails v cs files
        = (files.filter (fun p => !(cs.contains p.1)), false) := by
  induction cs with
  | nil => intro files _; simp [clearLoop]
  | cons c cs ih =>
      intro files h
      have hc : fails c = false := h c (by simp)
      have hcs : ∀ x ∈ cs, fails x = false := fun x hx => h x (by simp [hx])
      simp only [clearLoop, hc, Bool.false_eq_true, if_false]
      rw [ih _ hcs, List.filter_filter]
      refine congrArg (fun l => (l, false)) (List.filter_congr ?_)
      intro x _
      simp only [List.contains_cons, Bool.not_or]
      rw [Bool.and_comm]

/-- The first failing child aborts the loop: only the children strictly before
it have been removed, and the warning is printed exactly in verbose mode. -/
theorem clearLoop_stops (fails : String → Bool) (v : Bool) (cs1 : List String)
    (c : String) (cs2 : List String) :
    ∀ files : List RelPath, (∀ x ∈ cs1, fails x = false) → fails c = true →
      clearLoop fails v (cs1 ++ c :: cs2) files
        = (files.filter (fun p => !(cs1.contains p.1)), v) := by
  induction cs1 with
  | nil =>
      intro files _ hc
      simp [clearLoop, hc]
  | cons x cs1 ih =>
      intro files h hc
      have hx : fails x = false := h x (by simp)
      have hcs : ∀ y ∈ cs1, fails y = false := fun y hy => h y (by simp [hy])
      simp only [List.cons_append, clearLoop, hx, Bool.false_eq_true, if_false,
        List.append_eq]
      rw [ih _ hcs hc, List.filter_filter]
      refine congrArg (fun l => (l, v)) (List.filter_congr ?_)
      intro y _
      simp only [List.contains_cons, Bool.not_or]
      rw [Bool.and_comm]

/-- Clearing an existing directory with no failing removal empties it. -/
theorem clear_all_children (files : List RelPath) (fails : String → Bool)
    (v : Bool) (h : ∀ c ∈ childrenOf files, fails c = false) :
    clear_target_directory (some files) fails v = (some [], false) := by
  simp only [clear_target_directory]
  rw [clearLoop_no_fail fails v (childrenOf files) files h]
  have hnil : files.filter (fun p => !((childrenOf files).contains p.1)) = [] := by
    rw [List.filter_eq_nil_iff]
    intro a ha
    have hmem : a.1 ∈ childrenOf files :=
      List.mem_dedup.mpr (List.mem_map_of_mem Prod.fst ha)
    simp [hmem]
  rw [hnil]

/-! # Claim theorems: DeploymentExecutor -/

/-- Claim C1: for every prior state of the target directory and every archive
entry set, running Clear (with each removal succeeding) and then Deploy leaves
the target file set exactly equal to the archive entry set. -/
theorem clear_then_deploy (v : Bool) (st : Option (List RelPath))
    (entries : List RelPath) (p : RelPath) :
    p ∈ (deploy_files (clear_target_directory st (fun _ => false) v).1
          entries).getD []
      ↔ p ∈ entries := by
  have hcl : (clear_target_directory st (fun _ => false) v).1 = some [] := by
    cases st with
    | none => rfl
    | some files =>
        rw [clear_all_children files _ v (fun c _ => rfl)]
  rw [hcl]
  simp [deploy_files]

/-- Claim C4 counterexample: with children "a" and "b" where removal of "a"
fails and removal of "b" would succeed, "b" is still present after Clear: the
remaining item was never attempted, refuting "every remaining item is still
attempted". -/
theorem clear_aborts_on_first_failure_cex :
    (fun c => c == "a") "b" = false ∧
      ("b", ([] : List String)) ∈
        ((clear_target_directory (some [("a", []), ("b", [])])
          (fun c => c == "a") false).1.getD []) := by decide

/-- Claim C4 (amended): a missing target is created empty; when no removal
fails every direct child is removed; a failing removal aborts the loop — the
children before the first failing one are removed, the rest are untouched —
with a single warning printed only in verbose mode, and the operation never
raises (it is a total function). -/
theorem clear_behavior :
    (∀ (fails : String → Bool) (v : Bool),
       clear_target_directory none fails v = (some [], false)) ∧
    (∀ (files : List RelPath) (fails : String → Bool) (v : Bool),
       (∀ c ∈ childrenOf files, fails c = false) →
       clear_target_directory (some files) fails v = (some [], false)) ∧
    (∀ (files : List RelPath) (fails : String → Bool) (v : Bool)
        (cs1 : List String) (c : String) (cs2 : List String),
       childrenOf files = cs1 ++ c :: cs2 → (∀ x ∈ cs1, fails x = false) →
       fails c = true →
       clear_target_directory (some files) fails v
         = (some (files.filter (fun p => !(cs1.contains p.1))), v)) := by
  refine ⟨fun fails v => rfl,
          fun files fails v h => clear_all_children files fails v h, ?_⟩
  intro files fails v cs1 c cs2 hch h1 hc
  simp only [clear_target_directory, hch]
  rw [clearLoop_stops fails v cs1 c cs2 files h1 hc]

/-- Witness for clear_behavior: children ["a", "b"], removal of "a" fails, in
verbose mode: nothing is removed and the warning is printed. -/
theorem clear_behavior_witness :
    clear_target_directory (some [("a", []), ("b", [])]) (fun c => c == "a")
        true
      = (some ([("a", []), ("b", [])].filter
          (fun p => !(([] : List String).contains p.1))), true) :=
  clear_behavior.2.2 [("a", []), ("b", [])] (fun c => c == "a") true []
    "a" ["b"] (by decide) (by simp) (by decide)

/-! # Claim theorems: BuildManager.create_zip_file -/

/-- Mapping the build prefix over a relative listing and taking relative
entries gives back the relative file paths. -/
theorem zip_entries_relative (bp : List String)
    (rels : List (List String × Bool)) :
    ((rels.map (fun q => (bp ++ q.1, q.2))).filter (fun q => q.2)).map
        (fun q => q.1.drop bp.length)
      = (rels.filter (fun q => q.2)).map (fun q => q.1) := by
  induction rels with
  | nil => rfl
  | cons q rels ih =>
      cases hq : q.2 <;> simp [List.filter_cons, hq, ih, List.drop_left]

/-- Claim C8: the archive is named site_app_build_YYYYMMDD_HHMMSS.zip from the
timestamp taken at packaging start, written with deflate compression, and its
entries are exactly the files found recursively below the build folder, with
paths relative to the build folder; a listing containing only directories
yields zero entries without error. -/
theorem create_zip_spec :
    (∀ (bp : List String) (site app : String) (now : DateTime)
        (rels : List (List String × Bool)),
       create_zip_file bp site app now (rels.map (fun q => (bp ++ q.1, q.2)))
         = (site ++ "_" ++ app ++ "_build_" ++ timestampOf now ++ ".zip",
            ZipMode.deflated,
            (rels.filter (fun q => q.2)).map (fun q => q.1))) ∧
    (∀ (bp : List String) (site app : String) (now : DateTime)
        (tree : List (List String × Bool)), (∀ q ∈ tree, q.2 = false) →
       (create_zip_file bp site app now tree).2.2 = []) := by
  constructor
  · intro bp site app now rels
    simp only [create_zip_file, zip_entries_relative]
  · intro bp site app now tree h
    simp only [create_zip_file]
    have hnil : tree.filter (fun q => q.2) = [] := by
      rw [List.filter_eq_nil_iff]
      intro q hq
      simp [h q hq]
    rw [hnil]
    rfl

/-- Witness for create_zip_spec: a build tree holding a single directory and
no file produces an archive with zero entries. -/
theorem create_zip_spec_witness :
    (create_zip_file ["www"] "akbl" "mobile" ⟨2026, 1, 2, 3, 4, 5⟩
      [(["www", "sub"], false)]).2.2 = [] :=
  create_zip_spec.2 ["www"] "akbl" "mobile" ⟨2026, 1, 2, 3, 4, 5⟩
    [(["www", "sub"], false)] (by decide)

/-! # Claim theorems: ArgumentParser.parse_site_and_app -/

/-- Claim C9: a single separator-free deployment-path token with no app-name
argument resolves to (token, basename of the current directory) with no
prompting. -/
theorem parse_single_token (dp an cb ps : String) (h1 : dp ≠ "")
    (h2 : strContains dp '\\' = false) (h3 : strContains dp '/' = false)
    (h4 : an = "") :
    parse_site_and_app dp an cb ps = ([], Except.ok (dp, cb)) := by
  simp [parse_site_and_app, h1, h2, h3, h4]

/-- Witness for parse_single_token at the token "akbl" in a directory named
"mobile". -/
theorem parse_single_token_witness :
    parse_site_and_app "akbl" "" "mobile" ""
      = ([], Except.ok ("akbl", "mobile")) :=
  parse_single_token "akbl" "" "mobile" "" (by decide) (by decide) (by decide)
    rfl


/-! # Claim theorems: NetworkManager.connect_to_share -/

/-- A successful find? locates an element satisfying the predicate such that
every earlier element fails it. -/
theorem find?_decomp {α : Type} (p : α → Bool) :
    ∀ (l : List α) (a : α), l.find? p = some a →
      p a = true ∧ ∃ l1 l2, l = l1 ++ a :: l2 ∧ ∀ x ∈ l1, p x = false := by
  intro l
  induction l with
  | nil => intro a h; simp [List.find?] at h
  | cons x l ih =>
      intro a h
      cases hpx : p x with
      | true =>
          rw [List.find?_cons_of_pos _ hpx] at h
          simp only [Option.some.injEq] at h
          subst h
          exact ⟨hpx, [], l, rfl, by simp⟩
      | false =>
          rw [List.find?_cons_of_neg _ (by simp [hpx])] at h
          obtain ⟨hpa, l1, l2, hl, hall⟩ := ih a h
          refine ⟨hpa, x :: l1, l2, by rw [hl, List.cons_append], ?_⟩
          intro y hy
          rcases List.mem_cons.mp hy with h1 | h2
          · rw [h1]; exact hpx
          · exact hall y h2

/-- Claim C3: connect_to_share returns the UNC path with no allocated drive
when the anonymous listing succeeds; otherwise it prompts exactly for the
credentials the config leaves empty, scans the reverse alphabet from Z for
the first unused drive letter, issues the mount command on it, records the
drive on success, and fails with the authentication error exactly when the
mount command reports failure (all letters taken is the distinct
no-drive-letters error, with no mount attempted). -/
theorem connect_spec :
    (∀ (cfg : NetConfig) (de : String → Bool) (mo : Bool),
       connect_to_share cfg true de mo
         = ([Event.anonList], Except.ok (remote_path cfg, none))) ∧
    (∀ (cfg : NetConfig) (de : String → Bool) (mo : Bool),
       (Event.promptUser ∈ (connect_to_share cfg false de mo).1 ↔
          cfg.username = "") ∧
       (Event.promptPass ∈ (connect_to_share cfg false de mo).1 ↔
          cfg.password = "")) ∧
    (driveLetters
       = ["Z:", "Y:", "X:", "W:", "V:", "U:", "T:", "S:", "R:", "Q:", "P:",
          "O:", "N:", "M:", "L:", "K:", "J:", "I:", "H:", "G:", "F:", "E:",
          "D:", "C:", "B:", "A:"]) ∧
    (∀ (de : String → Bool) (d : String), find_available_drive de = some d →
       de d = false ∧ ∃ l1 l2, driveLetters = l1 ++ d :: l2 ∧
         ∀ x ∈ l1, de x = true) ∧
    (∀ (cfg : NetConfig) (de : String → Bool) (d : String),
       find_available_drive de = some d →
       Event.netUse d ∈ (connect_to_share cfg false de true).1 ∧
       (connect_to_share cfg false de true).2 = Except.ok (d, some d)) ∧
    (∀ (cfg : NetConfig) (de : String → Bool) (d : String),
       find_available_drive de = some d →
       Event.netUse d ∈ (connect_to_share cfg false de false).1 ∧
       (connect_to_share cfg false de false).2
         = Except.error ConnErr.authFailed) ∧
    (∀ (cfg : NetConfig) (de : String → Bool) (mo : Bool),
       find_available_drive de = none →
       (connect_to_share cfg false de mo).2
         = Except.error ConnErr.noDriveLetters) := by
  refine ⟨fun cfg de mo => rfl, ?_, by decide, ?_, ?_, ?_, ?_⟩
  · intro cfg de mo
    constructor <;>
      (simp only [connect_to_share, Bool.false_eq_true, if_false,
        authenticate_and_map]
       cases hf : find_available_drive de <;>
         by_cases hu : cfg.username = "" <;>
           by_cases hp : cfg.password = "" <;>
             simp [hf, hu, hp])
  · intro de d h
    obtain ⟨hpd, l1, l2, hl, hall⟩ :=
      find?_decomp (fun x => !(de x)) driveLetters d h
    refine ⟨by simpa using hpd, l1, l2, hl, fun x hx => by simpa using hall x hx⟩
  · intro cfg de d hf
    constructor
    · simp only [connect_to_share, Bool.false_eq_true, if_false,
        authenticate_and_map, hf]
      exact List.mem_cons_of_mem _ (List.mem_append_right _ (by simp))
    · simp [connect_to_share, authenticate_and_map, hf]
  · intro cfg de d hf
    constructor
    · simp only [connect_to_share, Bool.false_eq_true, if_false,
        authenticate_and_map, hf]
      exact List.mem_cons_of_mem _ (List.mem_append_right _ (by simp))
    · simp [connect_to_share, authenticate_and_map, hf]
  · intro cfg de mo hf
    simp [connect_to_share, authenticate_and_map, hf]

/-- Witness for connect_spec: all drive letters free, mount refused: the mount
command runs on Z: and the call fails with the authentication error. -/
theorem connect_spec_witness :
    Event.netUse "Z:" ∈ (connect_to_share
        { remote_server := "srv", remote_share := "e$", username := "u",
          password := "p" } false (fun _ => false) false).1 ∧
    (connect_to_share
        { remote_server := "srv", remote_share := "e$", username := "u",
          password := "p" } false (fun _ => false) false).2
      = Except.error ConnErr.authFailed :=
  connect_spec.2.2.2.2.2.1
    { remote_server := "srv", remote_share := "e$", username := "u",
      password := "p" } (fun _ => false) "Z:" (by decide)


/-! # Supporting lemmas for the orchestrator claims -/

/-- parse_site_and_app issues at most the site-name prompt. -/
theorem parse_events_cases (dp an cb ps : String) :
    (parse_site_and_app dp an cb ps).1 = [] ∨
      (parse_site_and_app dp an cb ps).1 = [Event.promptSite] := by
  simp only [parse_site_and_app]
  repeat' split
  all_goals simp

/-- Events of authenticate_and_map: credential prompts and the mount
command. -/
theorem auth_events_mem (cfg : NetConfig) (de : String → Bool) (mo : Bool)
    (e : Event) (he : e ∈ (authenticate_and_map cfg de mo).1) :
    e = Event.promptUser ∨ e = Event.promptPass ∨ ∃ d, e = Event.netUse d := by
  simp only [authenticate_and_map] at he
  cases hf : find_available_drive de <;> rw [hf] at he <;>
    split_ifs at he <;> aesop

/-- Events of connect_to_share: the anonymous listing, credential prompts and
the mount command. -/
theorem connect_events_mem (cfg : NetConfig) (ao : Bool) (de : String → Bool)
    (mo : Bool) (e : Event) (he : e ∈ (connect_to_share cfg ao de mo).1) :
    e = Event.anonList ∨ e = Event.promptUser ∨ e = Event.promptPass ∨
      ∃ d, e = Event.netUse d := by
  cases ao with
  | true =>
      simp [connect_to_share] at he
      exact Or.inl he
  | false =>
      simp only [connect_to_share, Bool.false_eq_true, if_false] at he
      rcases List.mem_cons.mp he with h | h
      · exact Or.inl h
      · rcases auth_events_mem cfg de mo e h with h | h | h
        · exact Or.inr (Or.inl h)
        · exact Or.inr (Or.inr (Or.inl h))
        · exact Or.inr (Or.inr (Or.inr h))

/-- Events of create_backup: the archive attempt and the verbose warning. -/
theorem backup_events_mem (v te tn bo : Bool) (e : Event)
    (he : e ∈ (create_backup v te tn bo).1) :
    e = Event.backupAttempt ∨ e = Event.backupWarn := by
  simp only [create_backup] at he
  split_ifs at he <;> simp at he <;> tauto

/-- Events of confirm_deployment: at most the confirmation prompt. -/
theorem confirm_events_mem (f : Bool) (r : String) (e : Event)
    (he : e ∈ (confirm_deployment f r).1) : e = Event.promptConfirm := by
  simp only [confirm_deployment] at he
  split_ifs at he <;> simp at he <;> tauto

/-- Events of disconnect: at most one unmount command. -/
theorem disconnect_events_mem (drv : Option String) (u : Bool) (e : Event)
    (he : e ∈ disconnect_events drv u) : ∃ d, e = Event.netUseDelete d := by
  cases drv with
  | none => simp [disconnect_events] at he
  | some d =>
      simp [disconnect_events] at he
      exact ⟨d, he⟩


/-- Closure principle for stageDeploy: a predicate holding on the prefix, the
backup events and the core events holds on every event of the stage. -/
theorem stageDeploy_forall (a : Args) (w : World) (pre : List Event)
    (drv : Option String) (P : Event → Prop)
    (hpre : ∀ e ∈ pre, P e)
    (hbk : ∀ e ∈ (create_backup a.verbose w.targetExists w.targetNonempty
            w.backupOk).1, P e)
    (hcore : ∀ e ∈ coreEvents a, P e) :
    ∀ e ∈ (stageDeploy a w pre drv).1, P e := by
  intro e he
  simp only [stageDeploy, List.append_assoc, List.mem_append] at he
  rcases he with he | he | he | he
  · exact hpre e he
  · split_ifs at he with h
    · exact absurd he (List.not_mem_nil e)
    · rcases List.mem_cons.mp he with h2 | h2
      · exact hcore e (by
          simp only [coreEvents, List.mem_cons, List.not_mem_nil, or_false]
          tauto)
      · exact hbk e h2
  · exact hcore e (by
      simp only [coreEvents, List.mem_cons, List.not_mem_nil, or_false] at he ⊢
      tauto)
  · split_ifs at he <;>
      exact hcore e (by
        simp only [coreEvents, List.mem_cons, List.not_mem_nil, or_false]
          at he ⊢
        tauto)

/-- Closure principle for stageConfirm. -/
theorem stageConfirm_forall (a : Args) (w : World) (pre : List Event)
    (drv : Option String) (P : Event → Prop)
    (hpre : ∀ e ∈ pre, P e)
    (hcf : ∀ e ∈ (confirm_deployment a.force w.confirmResponse).1, P e)
    (hbk : ∀ e ∈ (create_backup a.verbose w.targetExists w.targetNonempty
            w.backupOk).1, P e)
    (hcore : ∀ e ∈ coreEvents a, P e) :
    ∀ e ∈ (stageConfirm a w pre drv).1, P e := by
  intro e he
  simp only [stageConfirm] at he
  split_ifs at he with h
  · refine stageDeploy_forall a w _ drv P ?_ hbk hcore e he
    intro x hx
    rcases List.mem_append.mp hx with hx | hx
    · exact hpre x hx
    · exact hcf x hx
  · simp only [List.append_assoc, List.mem_append] at he
    rcases he with he | he | he
    · exact hpre e he
    · exact hcf e he
    · exact hcore e (by
        simp only [coreEvents, List.mem_cons, List.not_mem_nil, or_false]
          at he ⊢
        tauto)

/-- Closure principle for stageConnect. -/
theorem stageConnect_forall (a : Args) (w : World) (pre : List Event)
    (P : Event → Prop)
    (hpre : ∀ e ∈ pre, P e)
    (hcn : ∀ e ∈ (connect_to_share w.cfg w.anonOk w.driveExists w.mountOk).1,
      P e)
    (hcf : ∀ e ∈ (confirm_deployment a.force w.confirmResponse).1, P e)
    (hbk : ∀ e ∈ (create_backup a.verbose w.targetExists w.targetNonempty
            w.backupOk).1, P e)
    (hcore : ∀ e ∈ coreEvents a, P e) :
    ∀ e ∈ (stageConnect a w pre).1, P e := by
  intro e he
  simp only [stageConnect] at he
  cases hcr : (connect_to_share w.cfg w.anonOk w.driveExists w.mountOk).2 with
  | error err =>
      rw [hcr] at he
      simp only [List.append_assoc, List.mem_append] at he
      rcases he with he | he | he
      · exact hpre e he
      · exact hcn e he
      · exact hcore e (by
          simp only [coreEvents, List.mem_cons, List.not_mem_nil, or_false]
            at he ⊢
          tauto)
  | ok pd =>
      rw [hcr] at he
      refine stageConfirm_forall a w _ pd.2 P ?_ hcf hbk hcore e he
      intro x hx
      rcases List.mem_append.mp hx with hx | hx
      · exact hpre x hx
      · exact hcn x hx

/-- Closure principle for stageBuild. -/
theorem stageBuild_forall (a : Args) (w : World) (pre : List Event)
    (P : Event → Prop)
    (hpre : ∀ e ∈ pre, P e)
    (hcn : ∀ e ∈ (connect_to_share w.cfg w.anonOk w.driveExists w.mountOk).1,
      P e)
    (hcf : ∀ e ∈ (confirm_deployment a.force w.confirmResponse).1, P e)
    (hbk : ∀ e ∈ (create_backup a.verbose w.targetExists w.targetNonempty
            w.backupOk).1, P e)
    (hcore : ∀ e ∈ coreEvents a, P e) :
    ∀ e ∈ (stageBuild a w pre).1, P e := by
  have hbev : ∀ e ∈ (if a.noBuild then ([] : List Event) else [Event.ngBuild]),
      P e := by
    intro e he
    split_ifs at he
    · exact absurd he (List.not_mem_nil e)
    · exact hcore e (by
        simp only [coreEvents, List.mem_cons, List.not_mem_nil, or_false]
          at he ⊢
        tauto)
  have hcst : ∀ l : List Event, (∀ x ∈ l, x ∈ coreEvents a) → ∀ e ∈ l, P e :=
    fun l hl e he => hcore e (hl e he)
  intro e he
  simp only [stageBuild] at he
  by_cases h1 : a.noBuild = false ∧ w.buildOk = false
  · rw [if_pos h1] at he
    simp only [List.append_assoc, List.mem_append] at he
    rcases he with he | he
    · exact hpre e he
    · refine hcst _ ?_ e he
      intro x hx
      simp only [coreEvents, List.mem_cons, List.not_mem_nil, or_false]
        at hx ⊢
      tauto
  · rw [if_neg h1] at he
    by_cases h2 : w.buildFolderFound = false
    · rw [if_pos h2] at he
      simp only [List.append_assoc, List.mem_append] at he
      rcases he with he | he | he
      · exact hpre e he
      · exact hbev e he
      · refine hcst _ ?_ e he
        intro x hx
        simp only [coreEvents, List.mem_cons, List.not_mem_nil, or_false]
          at hx ⊢
        tauto
    · rw [if_neg h2] at he
      by_cases h3 : w.zipOk = false
      · rw [if_pos h3] at he
        simp only [List.append_assoc, List.mem_append] at he
        rcases he with he | he | he
        · exact hpre e he
        · exact hbev e he
        · refine hcst _ ?_ e he
          intro x hx
          simp only [coreEvents, List.mem_cons, List.not_mem_nil, or_false]
            at hx ⊢
          tauto
      · rw [if_neg h3] at he
        by_cases h4 : w.pingOk = false
        · rw [if_pos h4] at he
          simp only [List.append_assoc, List.mem_append] at he
          rcases he with he | he | he
          · exact hpre e he
          · exact hbev e he
          · refine hcst _ ?_ e he
            intro x hx
            simp only [coreEvents, List.mem_cons, List.not_mem_nil, or_false]
              at hx ⊢
            tauto
        · rw [if_neg h4] at he
          refine stageConnect_forall a w _ P ?_ hcn hcf hbk hcore e he
          intro x hx
          simp only [List.append_assoc, List.mem_append] at hx
          rcases hx with hx | hx | hx
          · exact hpre x hx
          · exact hbev x hx
          · refine hcst _ ?_ x hx
            intro y hy
            simp only [coreEvents, List.mem_cons, List.not_mem_nil, or_false]
              at hy ⊢
            tauto

/-- Closure principle for the whole command body. -/
theorem deployBody_forall (a : Args) (w : World) (P : Event → Prop)
    (hpa : ∀ e ∈ (parse_site_and_app a.deploymentPath a.appName w.cwdBase
            w.promptedSite).1, P e)
    (hcn : ∀ e ∈ (connect_to_share w.cfg w.anonOk w.driveExists w.mountOk).1,
      P e)
    (hcf : ∀ e ∈ (confirm_deployment a.force w.confirmResponse).1, P e)
    (hbk : ∀ e ∈ (create_backup a.verbose w.targetExists w.targetNonempty
            w.backupOk).1, P e)
    (hcore : ∀ e ∈ coreEvents a, P e) :
    ∀ e ∈ (deployBody a w).1, P e := by
  intro e he
  simp only [deployBody] at he
  cases hpr : (parse_site_and_app a.deploymentPath a.appName w.cwdBase
      w.promptedSite).2 with
  | error err =>
      rw [hpr] at he
      simp only [List.mem_append] at he
      rcases he with he | he
      · exact hpa e he
      · exact hcore e (by
          simp only [coreEvents, List.mem_cons, List.not_mem_nil, or_false]
            at he ⊢
          tauto)
  | ok sa =>
      rw [hpr] at he
      split_ifs at he
      · simp only [List.mem_append] at he
        rcases he with he | he
        · exact hpa e he
        · exact hcore e (by
            simp only [coreEvents, List.mem_cons, List.not_mem_nil, or_false]
              at he ⊢
            tauto)
      · simp only [List.mem_append] at he
        rcases he with he | he
        · exact hpa e he
        · exact hcore e (by
            simp only [coreEvents, List.mem_cons, List.not_mem_nil, or_false]
              at he ⊢
            tauto)
      · exact stageBuild_forall a w _ P hpa hcn hcf hbk hcore e he


/-- An event other than the site prompt is not produced by parsing. -/
theorem not_mem_parse (dp an cb ps : String) (e : Event)
    (hne : e ≠ Event.promptSite) :
    e ∉ (parse_site_and_app dp an cb ps).1 := by
  intro h
  rcases parse_events_cases dp an cb ps with hp | hp <;> rw [hp] at h <;>
    simp at h
  exact hne h

/-- An event that is none of the connect events is not produced by
connect_to_share. -/
theorem not_mem_connect (cfg : NetConfig) (ao : Bool) (de : String → Bool)
    (mo : Bool) (e : Event) (h1 : e ≠ Event.anonList)
    (h2 : e ≠ Event.promptUser) (h3 : e ≠ Event.promptPass)
    (h4 : ∀ d, e ≠ Event.netUse d) :
    e ∉ (connect_to_share cfg ao de mo).1 := by
  intro h
  rcases connect_events_mem cfg ao de mo e h with h | h | h | ⟨d, h⟩
  · exact h1 h
  · exact h2 h
  · exact h3 h
  · exact h4 d h

/-- An event other than the confirmation prompt is not produced by
confirm_deployment. -/
theorem not_mem_confirm (f : Bool) (r : String) (e : Event)
    (hne : e ≠ Event.promptConfirm) : e ∉ (confirm_deployment f r).1 := by
  intro h
  exact hne (confirm_events_mem f r e h)

/-- An event that is no unmount command is not produced by disconnect. -/
theorem not_mem_disconnect (drv : Option String) (u : Bool) (e : Event)
    (hne : ∀ d, e ≠ Event.netUseDelete d) : e ∉ disconnect_events drv u := by
  intro h
  obtain ⟨d, hd⟩ := disconnect_events_mem drv u e h
  exact hne d hd

/-- Shape of the body when parsing fails. -/
theorem deployBody_parse_fail (a : Args) (w : World) (err : Unit)
    (hp : (parse_site_and_app a.deploymentPath a.appName w.cwdBase
            w.promptedSite).2 = Except.error err) :
    deployBody a w
      = ((parse_site_and_app a.deploymentPath a.appName w.cwdBase
          w.promptedSite).1 ++ [Event.failMsg], false, none) := by
  simp only [deployBody, hp]

/-- Shape of the body in dry-run mode. -/
theorem deployBody_dry_shape (a : Args) (w : World) (sa : String × String)
    (hp : (parse_site_and_app a.deploymentPath a.appName w.cwdBase
            w.promptedSite).2 = Except.ok sa)
    (hd : a.dryRun = true) :
    deployBody a w
      = ((parse_site_and_app a.deploymentPath a.appName w.cwdBase
          w.promptedSite).1 ++ [Event.dryPlan (planLines a)], true, none) := by
  simp only [deployBody, hp, hd, if_true]

/-- Shape of the body on a run that reaches the confirmation prompt: parsing
succeeded, no dry run, the project validates, build, packaging and ping
succeed and the connection is established. -/
theorem deployBody_confirm_shape (a : Args) (w : World) (sa : String × String)
    (r : String × Option String)
    (hp : (parse_site_and_app a.deploymentPath a.appName w.cwdBase
            w.promptedSite).2 = Except.ok sa)
    (hd : a.dryRun = false) (hng : w.angularJsonExists = true)
    (hb : a.noBuild = false → w.buildOk = true)
    (hbf : w.buildFolderFound = true) (hz : w.zipOk = true)
    (hpg : w.pingOk = true)
    (hc : (connect_to_share w.cfg w.anonOk w.driveExists w.mountOk).2
            = Except.ok r) :
    deployBody a w
      = stageConfirm a w
          ((parse_site_and_app a.deploymentPath a.appName w.cwdBase
              w.promptedSite).1 ++
            (if a.noBuild then [] else [Event.ngBuild]) ++
            [Event.createZip, Event.ping] ++
            (connect_to_share w.cfg w.anonOk w.driveExists w.mountOk).1)
          r.2 := by
  have hnb : ¬(a.noBuild = false ∧ w.buildOk = false) := by
    rintro ⟨hx, hy⟩
    rw [hb hx] at hy
    exact Bool.noConfusion hy
  simp only [deployBody, hp, hd, Bool.false_eq_true, if_false, hng,
    Bool.true_eq_false, stageBuild, hnb, hbf, hz, hpg, stageConnect, hc]


/-! # Claim theorems: disconnect invariant (orchestrator + NetworkManager) -/

/-- Claim C2: on every run that constructs the NetworkManager, the finally
block invokes disconnect exactly once, whatever the exit path; when a drive
letter was recorded the trace holds exactly one unmount command for that
drive; the single unmount is issued whether or not the unmount command
succeeds (its failure is swallowed — disconnect is a total function whose
output ignores the unmount result); and with no recorded drive disconnect
performs no action. -/
theorem disconnect_exactly_once :
    (∀ (a : Args) (w : World), (deployBody a w).2.1 = true →
       (runDeploy a w).count Event.disconnectCall = 1) ∧
    (∀ (a : Args) (w : World) (d : String), (deployBody a w).2.1 = true →
       (deployBody a w).2.2 = some d →
       (runDeploy a w).count (Event.netUseDelete d) = 1) ∧
    (∀ (d : String) (u : Bool),
       disconnect_events (some d) u = [Event.netUseDelete d]) ∧
    (∀ u : Bool, disconnect_events none u = []) := by
  have hclean : ∀ (a : Args) (w : World), ∀ e ∈ (deployBody a w).1,
      isCleanupEvent e = false := by
    intro a w
    refine deployBody_forall a w _ ?_ ?_ ?_ ?_ ?_
    · intro e he
      rcases parse_events_cases a.deploymentPath a.appName w.cwdBase
        w.promptedSite with hp | hp <;> rw [hp] at he <;> simp at he
      rw [he]; rfl
    · intro e he
      rcases connect_events_mem _ _ _ _ e he with h | h | h | ⟨d, h⟩ <;>
        rw [h] <;> rfl
    · intro e he
      rw [confirm_events_mem _ _ e he]; rfl
    · intro e he
      rcases backup_events_mem _ _ _ _ e he with h | h <;> rw [h] <;> rfl
    · intro e he
      simp only [coreEvents, List.mem_cons, List.not_mem_nil, or_false] at he
      rcases he with h | h | h | h | h | h | h | h | h | h | h | h <;>
        rw [h] <;> rfl
  refine ⟨?_, ?_, fun d u => rfl, fun u => rfl⟩
  · intro a w hnm
    have h1 : (deployBody a w).1.count Event.disconnectCall = 0 :=
      List.count_eq_zero.mpr (fun hmem => by
        have hcl := hclean a w _ hmem
        simp [isCleanupEvent] at hcl)
    have h2 : (disconnect_events (deployBody a w).2.2 w.unmountOk).count
        Event.disconnectCall = 0 := by
      cases (deployBody a w).2.2 <;> rfl
    cases hcd : w.configDirExists <;>
      simp [runDeploy, hnm, hcd, List.count_append, List.count_cons, h1, h2]
  · intro a w d hnm hd
    have h1 : (deployBody a w).1.count (Event.netUseDelete d) = 0 :=
      List.count_eq_zero.mpr (fun hmem => by
        have hcl := hclean a w _ hmem
        simp [isCleanupEvent] at hcl)
    cases hcd : w.configDirExists <;>
      simp [runDeploy, hnm, hcd, hd, disconnect_events, List.count_append,
        List.count_cons, h1]

/-- Witness for disconnect_exactly_once: the drive-mapped all-success world
with a failing unmount command still produces exactly one disconnect
invocation and exactly one unmount of Z:. -/
theorem disconnect_exactly_once_witness :
    (runDeploy okArgs mappedWorld).count Event.disconnectCall = 1 ∧
    (runDeploy okArgs mappedWorld).count (Event.netUseDelete "Z:") = 1 :=
  ⟨disconnect_exactly_once.1 okArgs mappedWorld (by decide),
   disconnect_exactly_once.2.1 okArgs mappedWorld "Z:" (by decide) (by decide)⟩

/-! # Claim theorems: dry run returns before the pipeline (C10) -/

/-- Claim C10: with the dry-run flag, once parsing succeeds the command
returns right after printing its plan — no validation failure is reported, no
build, packaging or network call happens — even when the project marker file
and the build output are both absent. -/
theorem dry_run_skips_pipeline (a : Args) (w : World) (sa : String × String)
    (hd : a.dryRun = true)
    (hp : (parse_site_and_app a.deploymentPath a.appName w.cwdBase
            w.promptedSite).2 = Except.ok sa)
    (_hng : w.angularJsonExists = false) (_hbf : w.buildFolderFound = false) :
    Event.dryPlan (planLines a) ∈ runDeploy a w ∧
      Event.failMsg ∉ runDeploy a w ∧ Event.ngBuild ∉ runDeploy a w ∧
      Event.createZip ∉ runDeploy a w ∧ Event.ping ∉ runDeploy a w ∧
      Event.anonList ∉ runDeploy a w := by
  have hbody := deployBody_dry_shape a w sa hp hd
  have htr : runDeploy a w
      = (if w.configDirExists then [] else [Event.mkdirConfigDir]) ++
        ((parse_site_and_app a.deploymentPath a.appName w.cwdBase
            w.promptedSite).1 ++ [Event.dryPlan (planLines a)]) ++
        [Event.disconnectCall] := by
    simp [runDeploy, hbody, disconnect_events]
  rw [htr]
  refine ⟨by simp, ?_, ?_, ?_, ?_, ?_⟩ <;>
    · intro hmem
      rcases List.mem_append.mp hmem with hmem | hmem
      · rcases List.mem_append.mp hmem with hmem | hmem
        · split_ifs at hmem <;> simp at hmem
        · rcases List.mem_append.mp hmem with hmem | hmem
          · exact not_mem_parse _ _ _ _ _ (by simp) hmem
          · simp at hmem
      · simp at hmem

/-- Witness for dry_run_skips_pipeline: dry run in a directory with neither
angular.json nor build output. -/
theorem dry_run_skips_pipeline_witness :
    Event.dryPlan (planLines dryArgs) ∈ runDeploy dryArgs brokenWorld ∧
      Event.failMsg ∉ runDeploy dryArgs brokenWorld ∧
      Event.ngBuild ∉ runDeploy dryArgs brokenWorld ∧
      Event.createZip ∉ runDeploy dryArgs brokenWorld ∧
      Event.ping ∉ runDeploy dryArgs brokenWorld ∧
      Event.anonList ∉ runDeploy dryArgs brokenWorld :=
  dry_run_skips_pipeline dryArgs brokenWorld ("akbl", "mobile") rfl
    (by rfl) rfl rfl


/-! # Claim theorems: the confirmation gate (C6) -/

/-- Claim C6 counterexample: the response "y" differs from the literal word
"yes", yet the prompted run proceeds to extraction instead of cancelling, so
"any response other than an explicit yes cancels" fails at the response "y". -/
theorem confirm_accepts_y_cex :
    strLower (strTrim "y") ≠ "yes" ∧
      Event.promptConfirm ∈ runDeploy promptArgs okWorld ∧
      Event.extract ∈ runDeploy promptArgs okWorld ∧
      Event.cancelledMsg ∉ runDeploy promptArgs okWorld := by decide

/-- Claim C6 (amended): with the force flag, confirmation is granted without
any prompt; without it the prompt is shown, and a run that has reached the
prompt cancels on every response whose stripped lowercased form differs from
"y" (the literal word "yes" included): the cancellation message is printed and
the run ends with no clearing, no extraction and no failure report. -/
theorem confirm_gate :
    (∀ (a : Args) (w : World), a.force = true →
       Event.promptConfirm ∉ runDeploy a w) ∧
    (∀ (a : Args) (w : World) (sa : String × String)
        (r : String × Option String),
       (parse_site_and_app a.deploymentPath a.appName w.cwdBase
           w.promptedSite).2 = Except.ok sa →
       a.dryRun = false → w.angularJsonExists = true →
       (a.noBuild = false → w.buildOk = true) →
       w.buildFolderFound = true → w.zipOk = true → w.pingOk = true →
       (connect_to_share w.cfg w.anonOk w.driveExists w.mountOk).2
         = Except.ok r →
       a.force = false → strLower (strTrim w.confirmResponse) ≠ "y" →
       (Event.promptConfirm ∈ runDeploy a w ∧
        Event.cancelledMsg ∈ runDeploy a w ∧
        Event.clearDir ∉ runDeploy a w ∧ Event.extract ∉ runDeploy a w ∧
        Event.failMsg ∉ runDeploy a w)) := by
  constructor
  · intro a w hf hmem
    rcases List.mem_append.mp hmem with h | h
    · rcases List.mem_append.mp h with h | h
      · split_ifs at h <;> simp at h
      · have hall : ∀ e ∈ (deployBody a w).1, e ≠ Event.promptConfirm := by
          refine deployBody_forall a w _ ?_ ?_ ?_ ?_ ?_
          · intro e he
            rcases parse_events_cases a.deploymentPath a.appName w.cwdBase
              w.promptedSite with hp | hp <;> rw [hp] at he <;> simp at he
            rw [he]; simp
          · intro e he
            rcases connect_events_mem _ _ _ _ e he with h2 | h2 | h2 | ⟨d, h2⟩ <;>
              rw [h2] <;> simp
          · intro e he
            rw [hf] at he
            simp [confirm_deployment] at he
          · intro e he
            rcases backup_events_mem _ _ _ _ e he with h2 | h2 <;>
              rw [h2] <;> simp
          · intro e he
            simp only [coreEvents, List.mem_cons, List.not_mem_nil, or_false]
              at he
            rcases he with h2 | h2 | h2 | h2 | h2 | h2 | h2 | h2 | h2 | h2 |
              h2 | h2 <;> rw [h2] <;> simp
        exact hall _ h rfl
    · split_ifs at h
      · rcases List.mem_cons.mp h with h | h
        · simp at h
        · exact not_mem_disconnect _ _ _ (by simp) h
      · simp at h
  · intro a w sa r hp hd hng hb hbf hz hpg hc hf hr
    have hcf2 : (confirm_deployment a.force w.confirmResponse).2 = false := by
      rw [hf]
      simp only [confirm_deployment, Bool.false_eq_true, if_false]
      exact beq_eq_false_iff_ne.mpr hr
    have hbody := deployBody_confirm_shape a w sa r hp hd hng hb hbf hz hpg hc
    have hcancel : deployBody a w
        = ((parse_site_and_app a.deploymentPath a.appName w.cwdBase
              w.promptedSite).1 ++
            (if a.noBuild then [] else [Event.ngBuild]) ++
            [Event.createZip, Event.ping] ++
            (connect_to_share w.cfg w.anonOk w.driveExists w.mountOk).1 ++
            (confirm_deployment a.force w.confirmResponse).1 ++
            [Event.cancelledMsg], true, r.2) := by
      rw [hbody]
      simp only [stageConfirm, hcf2, Bool.false_eq_true, if_false]
    have htr : runDeploy a w
        = (if w.configDirExists then [] else [Event.mkdirConfigDir]) ++
          ((parse_site_and_app a.deploymentPath a.appName w.cwdBase
              w.promptedSite).1 ++
            (if a.noBuild then [] else [Event.ngBuild]) ++
            [Event.createZip, Event.ping] ++
            (connect_to_share w.cfg w.anonOk w.driveExists w.mountOk).1 ++
            (confirm_deployment a.force w.confirmResponse).1 ++
            [Event.cancelledMsg]) ++
          (Event.disconnectCall :: disconnect_events r.2 w.unmountOk) := by
      simp only [runDeploy, hcancel, if_true]
    rw [htr]
    have hpc : (confirm_deployment a.force w.confirmResponse).1
        = [Event.promptConfirm] := by
      rw [hf]
      simp [confirm_deployment]
    refine ⟨?_, by simp, ?_, ?_, ?_⟩
    · rw [hpc]
      simp
    all_goals
      intro hmem
      rcases List.mem_append.mp hmem with h | h
      · rcases List.mem_append.mp h with h | h
        · split_ifs at h <;> simp at h
        · rcases List.mem_append.mp h with h | h
          · rcases List.mem_append.mp h with h | h
            · rcases List.mem_append.mp h with h | h
              · rcases List.mem_append.mp h with h | h
                · rcases List.mem_append.mp h with h | h
                  · exact not_mem_parse _ _ _ _ _ (by simp) h
                  · split_ifs at h <;> simp at h
                · simp at h
              · exact not_mem_connect _ _ _ _ _ (by simp) (by simp) (by simp)
                  (by simp) h
            · exact not_mem_confirm _ _ _ (by simp) h
          · simp at h
      · rcases List.mem_cons.mp h with h | h
        · simp at h
        · exact not_mem_disconnect _ _ _ (by simp) h

/-- Witness for confirm_gate: the literal response "yes" cancels the prompted
run with no clearing, extraction or failure. -/
theorem confirm_gate_witness :
    Event.promptConfirm ∈ runDeploy promptArgs yesWorld ∧
      Event.cancelledMsg ∈ runDeploy promptArgs yesWorld ∧
      Event.clearDir ∉ runDeploy promptArgs yesWorld ∧
      Event.extract ∉ runDeploy promptArgs yesWorld ∧
      Event.failMsg ∉ runDeploy promptArgs yesWorld :=
  confirm_gate.2 promptArgs yesWorld ("akbl", "mobile")
    (remote_path yesWorld.cfg, none) (by rfl) rfl rfl (fun _ => rfl) rfl rfl
    rfl (by rfl) rfl (by decide)


/-! # Claim theorems: backup failure handling (C5) -/

/-- Claim C5 counterexample: with verbose off, a failing backup archival is
never surfaced — no warning appears anywhere in the trace — although the run
proceeds to clearing and extraction, refuting "the failure is surfaced to the
user before clearing proceeds". -/
theorem backup_silent_cex :
    Event.clearDir ∈ runDeploy okArgs backupFailWorld ∧
      Event.extract ∈ runDeploy okArgs backupFailWorld ∧
      Event.backupWarn ∉ runDeploy okArgs backupFailWorld := by decide

/-- Claim C5 (amended): a failure during backup archival never aborts the run
— create_backup returns no record instead of raising, and the run still
reaches clearing and extraction — but the warning is printed (during the
backup step, hence before clearing) only when verbose mode is on; with
verbose off the failure is silent. -/
theorem backup_failure_spec :
    (∀ v : Bool, create_backup v true true false
        = (Event.backupAttempt :: (if v then [Event.backupWarn] else []),
           none)) ∧
    (∀ (a : Args) (w : World) (sa : String × String)
        (r : String × Option String),
       (parse_site_and_app a.deploymentPath a.appName w.cwdBase
           w.promptedSite).2 = Except.ok sa →
       a.dryRun = false → w.angularJsonExists = true →
       (a.noBuild = false → w.buildOk = true) →
       w.buildFolderFound = true → w.zipOk = true → w.pingOk = true →
       (connect_to_share w.cfg w.anonOk w.driveExists w.mountOk).2
         = Except.ok r →
       (confirm_deployment a.force w.confirmResponse).2 = true →
       a.noBackup = false → w.targetExists = true → w.targetNonempty = true →
       w.backupOk = false →
       (Event.clearDir ∈ runDeploy a w ∧ Event.extract ∈ runDeploy a w ∧
        (Event.backupWarn ∈ runDeploy a w ↔ a.verbose = true))) := by
  refine ⟨fun v => rfl, ?_⟩
  intro a w sa r hp hd hng hb hbf hz hpg hc hcf hnb hte htn hbo
  have hbody := deployBody_confirm_shape a w sa r hp hd hng hb hbf hz hpg hc
  have htr : runDeploy a w
      = (if w.configDirExists then [] else [Event.mkdirConfigDir]) ++
        (((parse_site_and_app a.deploymentPath a.appName w.cwdBase
              w.promptedSite).1 ++
           (if a.noBuild then [] else [Event.ngBuild]) ++
           [Event.createZip, Event.ping] ++
           (connect_to_share w.cfg w.anonOk w.driveExists w.mountOk).1 ++
           (confirm_deployment a.force w.confirmResponse).1) ++
          (Event.backupCall :: (create_backup a.verbose true true false).1) ++
          [Event.makeTargetDir, Event.clearDir, Event.extract] ++
          (if w.extractOk then [Event.showSuccess]
           else [Event.failMsg, Event.showManual])) ++
        (Event.disconnectCall :: disconnect_events r.2 w.unmountOk) := by
    simp only [runDeploy, hbody, stageConfirm, hcf, if_true, stageDeploy,
      hnb, Bool.false_eq_true, if_false, hte, htn, hbo]
  refine ⟨by rw [htr]; simp, by rw [htr]; simp, ?_⟩
  cases hverb : a.verbose with
  | true =>
      constructor
      · intro _; rfl
      · intro _
        rw [htr]
        have hcb : (create_backup a.verbose true true false).1
            = [Event.backupAttempt, Event.backupWarn] := by rw [hverb]; rfl
        rw [hcb]
        simp
  | false =>
      constructor
      · intro hmem
        exfalso
        rw [htr] at hmem
        have hcb : (create_backup a.verbose true true false).1
            = [Event.backupAttempt] := by rw [hverb]; rfl
        rw [hcb] at hmem
        rcases List.mem_append.mp hmem with h | h
        · rcases List.mem_append.mp h with h | h
          · split_ifs at h <;> simp at h
          · rcases List.mem_append.mp h with h | h
            · rcases List.mem_append.mp h with h | h
              · rcases List.mem_append.mp h with h | h
                · rcases List.mem_append.mp h with h | h
                  · rcases List.mem_append.mp h with h | h
                    · rcases List.mem_append.mp h with h | h
                      · rcases List.mem_append.mp h with h | h
                        · exact not_mem_parse _ _ _ _ _ (by simp) h
                        · split_ifs at h <;> simp at h
                      · simp at h
                    · exact not_mem_connect _ _ _ _ _ (by simp) (by simp)
                        (by simp) (by simp) h
                  · exact not_mem_confirm _ _ _ (by simp) h
                · simp at h
              · simp at h
            · split_ifs at h <;> simp at h
        · rcases List.mem_cons.mp h with h | h
          · simp at h
          · exact not_mem_disconnect _ _ _ (by simp) h
      · intro hfalse
        simp at hfalse

/-- Witness for backup_failure_spec: the verbose run with a failing backup
still clears and extracts, and its warning appears in the trace. -/
theorem backup_failure_spec_witness :
    Event.clearDir ∈ runDeploy verboseArgs backupFailWorld ∧
      Event.extract ∈ runDeploy verboseArgs backupFailWorld ∧
      (Event.backupWarn ∈ runDeploy verboseArgs backupFailWorld ↔
        verboseArgs.verbose = true) :=
  backup_failure_spec.2 verboseArgs backupFailWorld ("akbl", "mobile")
    (remote_path backupFailWorld.cfg, none) (by rfl) rfl rfl (fun _ => rfl)
    rfl rfl rfl (by rfl) rfl rfl rfl rfl rfl


/-! # Claim theorems: dry-run frame and plan (C7) -/

/-- Parsing realizes no major pipeline step. -/
theorem steps_parse (dp an cb ps : String) :
    ((parse_site_and_app dp an cb ps).1).filterMap stepOf = [] := by
  rcases parse_events_cases dp an cb ps with h | h <;> rw [h] <;> rfl

/-- Authenticated mapping realizes no major pipeline step of its own. -/
theorem steps_auth (cfg : NetConfig) (de : String → Bool) (mo : Bool) :
    ((authenticate_and_map cfg de mo).1).filterMap stepOf = [] := by
  simp only [authenticate_and_map]
  cases hf : find_available_drive de with
  | none =>
      split_ifs <;> simp [List.filterMap_append, List.filterMap_cons, stepOf]
  | some d =>
      split_ifs <;> simp [List.filterMap_append, List.filterMap_cons, stepOf]

/-- connect_to_share realizes exactly the connect step. -/
theorem steps_connect (cfg : NetConfig) (ao : Bool) (de : String → Bool)
    (mo : Bool) :
    ((connect_to_share cfg ao de mo).1).filterMap stepOf = [Step.connect] := by
  cases ao with
  | true => rfl
  | false =>
      simp [connect_to_share, List.filterMap_cons, stepOf, steps_auth]

/-- The confirmation prompt realizes no major pipeline step. -/
theorem steps_confirm (f : Bool) (r : String) :
    ((confirm_deployment f r).1).filterMap stepOf = [] := by
  simp only [confirm_deployment]
  split_ifs <;> rfl

/-- The events inside create_backup realize no step beyond the backup-call
marker. -/
theorem steps_backup (v te tn bo : Bool) :
    ((create_backup v te tn bo).1).filterMap stepOf = [] := by
  simp only [create_backup]
  split_ifs <;> simp [List.filterMap_append, List.filterMap_cons, stepOf]

/-- Disconnect realizes no major pipeline step. -/
theorem steps_disconnect (drv : Option String) (u : Bool) :
    (disconnect_events drv u).filterMap stepOf = [] := by
  cases drv <;> rfl

/-- The startup mkdir realizes no major pipeline step. -/
theorem steps_init (b : Bool) :
    (((if b then [] else [Event.mkdirConfigDir])) : List Event).filterMap stepOf
      = [] := by
  cases b <;> rfl

/-- The conditional build event realizes the build step exactly when the
build runs. -/
theorem steps_bev (b : Bool) :
    (((if b then [] else [Event.ngBuild])) : List Event).filterMap stepOf
      = if b then [] else [Step.build] := by
  cases b <;> rfl

/-- The backup chunk realizes the backup step exactly when backup is not
skipped. -/
theorem steps_backup_chunk (nb v te tn bo : Bool) :
    (((if nb then []
       else Event.backupCall :: (create_backup v te tn bo).1)) :
        List Event).filterMap stepOf
      = if nb then [] else [Step.backup] := by
  cases nb with
  | true => rfl
  | false => simp [List.filterMap_cons, stepOf, steps_backup]

/-- Claim C7 counterexample: a dry run started while the configuration
directory is absent performs a filesystem mutation (the config-directory
mkdir), refuting "zero filesystem mutations". -/
theorem dry_run_mkdir_cex :
    dryArgs.dryRun = true ∧ isFsMutation Event.mkdirConfigDir = true ∧
      Event.mkdirConfigDir ∈ runDeploy dryArgs noCfgDirWorld := by decide

/-- Claim C7 (amended): apart from ensuring the configuration directory at
startup (an mkdir performed in every mode when the directory is absent), a
dry run performs zero filesystem mutations and zero network calls; and the
plan it prints lists build, zip, connect, backup and deploy with their skip
flags, whose performed entries equal, in order, the major steps a successful
real run with the same flags executes. -/
theorem dry_run_spec :
    (∀ (a : Args) (w : World), a.dryRun = true →
       ((runDeploy a w).filter isFsMutation
           = (if w.configDirExists then [] else [Event.mkdirConfigDir]) ∧
        (runDeploy a w).filter isNetwork = [])) ∧
    (∀ (a : Args) (w : World) (sa : String × String)
        (r : String × Option String),
       (parse_site_and_app a.deploymentPath a.appName w.cwdBase
           w.promptedSite).2 = Except.ok sa →
       w.angularJsonExists = true →
       (a.noBuild = false → w.buildOk = true) →
       w.buildFolderFound = true → w.zipOk = true → w.pingOk = true →
       (connect_to_share w.cfg w.anonOk w.driveExists w.mountOk).2
         = Except.ok r →
       (confirm_deployment a.force w.confirmResponse).2 = true →
       w.extractOk = true →
       (Event.dryPlan (planLines a) ∈ runDeploy { a with dryRun := true } w ∧
        (runDeploy { a with dryRun := false } w).filterMap stepOf
          = ((planLines a).filter (fun q => q.2)).map (fun q => q.1))) := by
  have hpfilter : ∀ (dp an cb ps : String) (p : Event → Bool),
      p Event.promptSite = false →
      ((parse_site_and_app dp an cb ps).1).filter p = [] := by
    intro dp an cb ps p hp
    rcases parse_events_cases dp an cb ps with h | h <;> rw [h] <;> simp [hp]
  constructor
  · intro a w hd
    cases hpr : (parse_site_and_app a.deploymentPath a.appName w.cwdBase
        w.promptedSite).2 with
    | error err =>
        have hbody := deployBody_parse_fail a w err hpr
        have htr : runDeploy a w
            = (if w.configDirExists then [] else [Event.mkdirConfigDir]) ++
              ((parse_site_and_app a.deploymentPath a.appName w.cwdBase
                  w.promptedSite).1 ++ [Event.failMsg]) := by
          simp [runDeploy, hbody]
        rw [htr]
        constructor <;>
          · rw [List.filter_append, List.filter_append, hpfilter _ _ _ _ _ rfl]
            cases w.configDirExists <;> rfl
    | ok sa =>
        have hbody := deployBody_dry_shape a w sa hpr hd
        have htr : runDeploy a w
            = (if w.configDirExists then [] else [Event.mkdirConfigDir]) ++
              ((parse_site_and_app a.deploymentPath a.appName w.cwdBase
                  w.promptedSite).1 ++ [Event.dryPlan (planLines a)]) ++
              [Event.disconnectCall] := by
          simp [runDeploy, hbody, disconnect_events]
        rw [htr]
        constructor <;>
          · rw [List.filter_append, List.filter_append, List.filter_append,
              hpfilter _ _ _ _ _ rfl]
            cases w.configDirExists <;> rfl
  · intro a w sa r hp hng hb hbf hz hpg hc hcf hex
    constructor
    · have hbody := deployBody_dry_shape { a with dryRun := true } w sa hp rfl
      have htr : runDeploy { a with dryRun := true } w
          = (if w.configDirExists then [] else [Event.mkdirConfigDir]) ++
            ((parse_site_and_app a.deploymentPath a.appName w.cwdBase
                w.promptedSite).1 ++
              [Event.dryPlan (planLines { a with dryRun := true })]) ++
            [Event.disconnectCall] := by
        simp [runDeploy, hbody, disconnect_events]
      rw [htr]
      have hpl : planLines { a with dryRun := true } = planLines a := rfl
      rw [hpl]
      simp
    · have hbody := deployBody_confirm_shape { a with dryRun := false } w sa r
        hp rfl hng hb hbf hz hpg hc
      have htr : runDeploy { a with dryRun := false } w
          = (if w.configDirExists then [] else [Event.mkdirConfigDir]) ++
            (((parse_site_and_app a.deploymentPath a.appName w.cwdBase
                  w.promptedSite).1 ++
               (if a.noBuild then [] else [Event.ngBuild]) ++
               [Event.createZip, Event.ping] ++
               (connect_to_share w.cfg w.anonOk w.driveExists w.mountOk).1 ++
               (confirm_deployment a.force w.confirmResponse).1) ++
              (if a.noBackup then []
               else Event.backupCall ::
                 (create_backup a.verbose w.targetExists w.targetNonempty
                   w.backupOk).1) ++
              [Event.makeTargetDir, Event.clearDir, Event.extract] ++
              [Event.showSuccess]) ++
            (Event.disconnectCall :: disconnect_events r.2 w.unmountOk) := by
        simp only [runDeploy, hbody, stageConfirm, hcf, if_true, stageDeploy,
          hex, Bool.true_eq_false, if_false]
      rw [htr]
      simp only [List.filterMap_append, List.filterMap_cons, steps_init,
        steps_parse, steps_connect, steps_confirm, steps_bev,
        steps_backup_chunk, steps_disconnect, stepOf, List.filterMap_nil]
      cases hnb : a.noBuild <;> cases hnk : a.noBackup <;>
        simp [planLines, hnb, hnk]

/-- Witness for dry_run_spec: the plan of a dry run with the default flags
matches the executed steps of the all-success real run. -/
theorem dry_run_spec_witness :
    Event.dryPlan (planLines okArgs)
        ∈ runDeploy { okArgs with dryRun := true } okWorld ∧
      (runDeploy { okArgs with dryRun := false } okWorld).filterMap stepOf
        = ((planLines okArgs).filter (fun q => q.2)).map (fun q => q.1) :=
  dry_run_spec.2 okArgs okWorld ("akbl", "mobile")
    (remote_path okWorld.cfg, none) (by rfl) rfl (fun _ => rfl) rfl rfl rfl
    (by rfl) (by rfl) rfl

end Deploy

